import Mathlib

/-!
# Sonnet `Speller` (src/core/speller.cpp)

A shallow embedding of the spell-checking facade: the private state
`Speller::Private` (dictionary handle and stored language), the validity gate
`Speller::Private::isValid`, the public operations built on it, and the
display map built by `Speller::availableDictionaries`.

The collaborators declared in `loader_p.h`, `settings_p.h` and
`spellerplugin_p.h` are not part of the sources; they are modelled from the
interface contracts of the specification (section 6).

Stateful code is written in state-passing style: every operation takes the
process-wide `Loader` (which owns the shared `Settings`) and the session's
`Private` state and returns its result together with the new states.
-/

namespace Sonnet

/-! ## Collaborators -/

/-- Modelled from the spec: the ConfigStore (class `Settings`, settings_p.h is
not among the sources). It holds the default language, the default backend,
the two boolean attributes and the modification flag read by `modified()` and
written by `setModified(bool)`. -/
structure Settings where
  modified : Bool
  defaultLanguage : String
  defaultClient : String
  checkUppercase : Bool
  skipRunTogether : Bool

/-- Modelled from the spec: `Settings::setModified(bool)`. -/
def Settings.setModified (s : Settings) (b : Bool) : Settings :=
  { s with modified := b }

/-- Modelled from the spec: the BackendDictionary capability (class
`SpellerPlugin`, spellerplugin_p.h is not among the sources). `D` is the state
of a backend dictionary object; the record holds its virtual methods.
`checkAndSuggest` receives the caller's suggestion list by reference and
returns the list as the backend leaves it. The three mutating methods return
the new state of the dictionary object next to their result. -/
structure SpellerPlugin (D : Type) where
  isCorrect : D → String → Bool
  isMisspelled : D → String → Bool
  suggest : D → String → List String
  checkAndSuggest : D → String → List String → Bool × List String
  storeReplacement : D → String → String → Bool × D
  addToPersonal : D → String → Bool × D
  addToSession : D → String → Bool × D
  language : D → String

/-- Modelled from the spec: the registry (class `Loader`, loader_p.h is not
among the sources), the process-wide singleton returned by
`Loader::openLoader()`. It owns the shared `Settings`. `resolve` is what
`createSpeller(tag)` yields for each tag under the present configuration
(`none` is the null pointer). `requests` is the trace of the tags passed to
`createSpeller` so far, oldest first. -/
structure Loader (D : Type) where
  settings : Settings
  resolve : String → Option D
  requests : List String

variable {D : Type}

/-- Modelled from the spec: `Loader::createSpeller(language)`, the registry
capability `createDictionary(languageTag) -> optional<BackendDictionary>`.
The request is recorded in the trace. -/
def Loader.createSpeller (l : Loader D) (language : String) : Option D × Loader D :=
  (l.resolve language, { l with requests := l.requests ++ [language] })

/-- The shared settings with the modification flag written,
`settings->setModified(b)` through the pointer held by the session. -/
def Loader.setModified (l : Loader D) (b : Bool) : Loader D :=
  { l with settings := l.settings.setModified b }

/-! ## `Speller::Private` -/

/-- The members `dict` and `language` of `Speller::Private`. The member
`settings` points to the loader's shared `Settings` and is read through the
`Loader` argument of each operation. -/
structure Private (D : Type) where
  dict : Option D
  language : String

/-- `QString::isEmpty()`. -/
def QString.isEmpty (s : String) : Bool := s.data.isEmpty

/-- `Speller::Private::init(lang)`. -/
def Private.init (l : Loader D) (lang : String) : Loader D × Private D :=
  let language := if QString.isEmpty lang then l.settings.defaultLanguage else lang
  let r := l.createSpeller language
  (r.2, { dict := r.1, language := language })

/-- `Speller::Private::recreateDict()`: the old handle is deleted and replaced
by the registry's answer for the stored language. -/
def Private.recreateDict (l : Loader D) (d : Private D) : Loader D × Private D :=
  let r := l.createSpeller d.language
  (r.2, { d with dict := r.1 })

/-- `Speller::Private::isValid()`, the validity gate. -/
def Private.isValid (l : Loader D) (d : Private D) : Bool × Loader D × Private D :=
  if l.settings.modified then
    let r := Private.recreateDict l d
    (r.2.dict.isSome, r.1.setModified false, r.2)
  else
    (d.dict.isSome, l, d)

/-! ## Public operations of `Speller`

Each gated operation starts with `if (!d->isValid()) return <default>;`.
`Private::isValid()` returns the handle `dict` converted to `bool`, so the
early return is taken exactly when the handle is null after the gate; the
operations below branch on the handle left by the gate. -/

/-- `Speller::Speller(const QString &lang)`. -/
def Speller.create (l : Loader D) (lang : String) : Loader D × Private D :=
  Private.init l lang

/-- `Speller::isCorrect(word)`. -/
def Speller.isCorrect (P : SpellerPlugin D) (l : Loader D) (d : Private D) (word : String) :
    Bool × Loader D × Private D :=
  let g := Private.isValid l d
  match g.2.2.dict with
  | none => (true, g.2.1, g.2.2)
  | some x => (P.isCorrect x word, g.2.1, g.2.2)

/-- `Speller::isMisspelled(word)`. -/
def Speller.isMisspelled (P : SpellerPlugin D) (l : Loader D) (d : Private D) (word : String) :
    Bool × Loader D × Private D :=
  let g := Private.isValid l d
  match g.2.2.dict with
  | none => (false, g.2.1, g.2.2)
  | some x => (P.isMisspelled x word, g.2.1, g.2.2)

/-- `Speller::suggest(word)`. -/
def Speller.suggest (P : SpellerPlugin D) (l : Loader D) (d : Private D) (word : String) :
    List String × Loader D × Private D :=
  let g := Private.isValid l d
  match g.2.2.dict with
  | none => ([], g.2.1, g.2.2)
  | some x => (P.suggest x word, g.2.1, g.2.2)

/-- `Speller::checkAndSuggest(word, suggestions)`. The argument `suggestions`
is the content of the caller's list when the call is made (it is passed by
reference); the result carries the return value and the content of that list
when the call returns. -/
def Speller.checkAndSuggest (P : SpellerPlugin D) (l : Loader D) (d : Private D)
    (word : String) (suggestions : List String) :
    (Bool × List String) × Loader D × Private D :=
  let g := Private.isValid l d
  match g.2.2.dict with
  | none => ((true, suggestions), g.2.1, g.2.2)
  | some x => (P.checkAndSuggest x word suggestions, g.2.1, g.2.2)

/-- `Speller::storeReplacement(bad, good)`. -/
def Speller.storeReplacement (P : SpellerPlugin D) (l : Loader D) (d : Private D)
    (bad good : String) : Bool × Loader D × Private D :=
  let g := Private.isValid l d
  match g.2.2.dict with
  | none => (false, g.2.1, g.2.2)
  | some x =>
    let r := P.storeReplacement x bad good
    (r.1, g.2.1, { g.2.2 with dict := some r.2 })

/-- `Speller::addToPersonal(word)`. -/
def Speller.addToPersonal (P : SpellerPlugin D) (l : Loader D) (d : Private D)
    (word : String) : Bool × Loader D × Private D :=
  let g := Private.isValid l d
  match g.2.2.dict with
  | none => (false, g.2.1, g.2.2)
  | some x =>
    let r := P.addToPersonal x word
    (r.1, g.2.1, { g.2.2 with dict := some r.2 })

/-- `Speller::addToSession(word)`. -/
def Speller.addToSession (P : SpellerPlugin D) (l : Loader D) (d : Private D)
    (word : String) : Bool × Loader D × Private D :=
  let g := Private.isValid l d
  match g.2.2.dict with
  | none => (false, g.2.1, g.2.2)
  | some x =>
    let r := P.addToSession x word
    (r.1, g.2.1, { g.2.2 with dict := some r.2 })

/-- `Speller::language()`: the tag reported by the dictionary, the null
string when the session has none. -/
def Speller.language (P : SpellerPlugin D) (l : Loader D) (d : Private D) :
    String × Loader D × Private D :=
  let g := Private.isValid l d
  match g.2.2.dict with
  | none => ("", g.2.1, g.2.2)
  | some x => (P.language x, g.2.1, g.2.2)

/-- `Speller::isValid()`, the public query: `return d->dict;`. -/
def Speller.isValid (l : Loader D) (d : Private D) : Bool × Loader D × Private D :=
  (d.dict.isSome, l, d)

/-- `Speller::setLanguage(lang)`. -/
def Speller.setLanguage (l : Loader D) (d : Private D) (lang : String) :
    Loader D × Private D :=
  Private.recreateDict l { d with language := lang }

/-- `Speller::Speller(const Speller &speller)`: a new `Private` whose language
is `speller.language()`, then `init`. The call of `speller.language()` runs the
gate on the source session. Returns the loader, the source session and the
new session. -/
def Speller.copy (P : SpellerPlugin D) (l : Loader D) (speller : Private D) :
    Loader D × Private D × Private D :=
  let r := Speller.language P l speller
  let i := Private.init r.2.1 r.1
  (i.1, r.2.2, i.2)

/-- `Speller::operator=(const Speller &speller)` on the session `d`, for a
source session that is another object than `d`. Returns the loader, the source
session and the assigned session. -/
def Speller.assign (P : SpellerPlugin D) (l : Loader D) (d speller : Private D) :
    Loader D × Private D × Private D :=
  let r := Speller.language P l speller
  let c := Private.recreateDict r.2.1 { d with language := r.1 }
  (c.1, r.2.2, c.2)

/-! ## The gated operations as one family -/

/-- The checking, suggestion and management operations that start with the
validity gate, with their arguments. -/
inductive Op where
  | isCorrect (word : String)
  | isMisspelled (word : String)
  | suggest (word : String)
  | checkAndSuggest (word : String) (suggestions : List String)
  | storeReplacement (bad good : String)
  | addToPersonal (word : String)
  | addToSession (word : String)
  | language

/-- The states left by a gated operation (its return value dropped). -/
def Speller.exec (P : SpellerPlugin D) (l : Loader D) (d : Private D) :
    Op → Loader D × Private D
  | .isCorrect w => (Speller.isCorrect P l d w).2
  | .isMisspelled w => (Speller.isMisspelled P l d w).2
  | .suggest w => (Speller.suggest P l d w).2
  | .checkAndSuggest w s => (Speller.checkAndSuggest P l d w s).2
  | .storeReplacement b g => (Speller.storeReplacement P l d b g).2
  | .addToPersonal w => (Speller.addToPersonal P l d w).2
  | .addToSession w => (Speller.addToSession P l d w).2
  | .language => (Speller.language P l d).2

/-! ## `Speller::availableDictionaries` -/

/-- Position of the first `c` in `cs`, counted from `i`; `-1` when absent. -/
def QString.indexOfFrom (c : Char) : List Char → Nat → Int
  | [], _ => -1
  | x :: xs, i => if x = c then (i : Int) else QString.indexOfFrom c xs (i + 1)

/-- `QString::indexOf(QChar)`: index of the first occurrence, `-1` if there is
none. -/
def QString.indexOf (s : String) (c : Char) : Int :=
  QString.indexOfFrom c s.data 0

/-- `QString::mid(position, n)` for a position that is not negative: the null
string if the position exceeds the length; all characters from the position
if `n` is negative or exceeds what is available; otherwise `n` characters
from the position. -/
def QString.mid (s : String) (position : Nat) (n : Int) : String :=
  if s.data.length < position then ""
  else if n < 0 ∨ ((s.data.length - position : Nat) : Int) < n then
    String.mk (s.data.drop position)
  else String.mk ((s.data.drop position).take n.toNat)

/-- The two names of a `QLocale` read by `availableDictionaries`. -/
structure QLocale where
  nativeLanguageName : String
  nativeCountryName : String

/-- The loop body up to the insertion: `tag = tag.mid(0, tag.indexOf('-'))`. -/
def localeCode (tag : String) : String :=
  QString.mid tag 0 (QString.indexOf tag '-')

/-- The description built in the loop body from `QLocale loc(tag)`:
`"%1 (%2)"` filled with the native language and country names when the country
name is not empty, else the language name alone. The two `arg` substitutions
are written as concatenation, which is what they produce for names that hold
no `%` place marker. -/
def describe (loc : QLocale) : String :=
  if !QString.isEmpty loc.nativeCountryName then
    loc.nativeLanguageName ++ " (" ++ loc.nativeCountryName ++ ")"
  else
    loc.nativeLanguageName

/-- `QMap<QString, QString>` as the list of its entries in ascending key
order. -/
abbrev QMap := List (String × String)

/-- Lexicographic comparison of two character sequences by character code. -/
def QString.ltChars : List Char → List Char → Bool
  | [], [] => false
  | [], _ :: _ => true
  | _ :: _, [] => false
  | a :: as, b :: bs =>
    if a.toNat < b.toNat then true
    else if a.toNat = b.toNat then QString.ltChars as bs
    else false

/-- `operator<(const QString &, const QString &)`, the key order of `QMap`. -/
def QString.lt (a b : String) : Bool := QString.ltChars a.data b.data

/-- `QMap::insert(key, value)`: the value of an existing key is replaced,
a new key is entered at its place in the key order. -/
def QMap.insert (key value : String) : QMap → QMap
  | [] => [(key, value)]
  | (k, v) :: m =>
    if QString.lt key k then (key, value) :: (k, v) :: m
    else if key = k then (key, value) :: m
    else (k, v) :: QMap.insert key value m

/-- `QMap::value(key)` as an option: the value stored under `key`. -/
def QMap.value (m : QMap) (key : String) : Option String :=
  (m.find? (fun e => e.1 = key)).map Prod.snd

/-- `QMap::keys()`. -/
def QMap.keys (m : QMap) : List String := m.map Prod.fst

/-- `QMap::values()`. -/
def QMap.values (m : QMap) : List String := m.map Prod.snd

/-- The keys of the map are in strictly ascending order. -/
def QMap.Ordered (m : QMap) : Prop :=
  (QMap.keys m).Pairwise (fun a b => QString.lt a b = true)

/-- One turn of the `Q_FOREACH` loop of `availableDictionaries`; `locale` is
the constructor `QLocale(const QString &name)` backed by the locale data. -/
def availableDictionariesStep (locale : String → QLocale) (langs : QMap) (tag : String) :
    QMap :=
  let tag := localeCode tag
  let loc := locale tag
  let description := describe loc
  QMap.insert description tag langs

/-- `Speller::availableDictionaries()` for the list `lst` returned by
`Loader::languages()`. -/
def Speller.availableDictionaries (locale : String → QLocale) (lst : List String) : QMap :=
  lst.foldl (availableDictionariesStep locale) []

/-- The display string under which the loop enters `tag`. -/
def descriptionOf (locale : String → QLocale) (tag : String) : String :=
  describe (locale (localeCode tag))

/-! ## Fixtures for concrete evaluation -/

/-- A backend dictionary object: the tag it reports and its word list. -/
structure WordList where
  tag : String
  words : List String

/-- A word-list backend implementing the plugin interface. -/
def wordListPlugin : SpellerPlugin WordList where
  isCorrect x w := x.words.contains w
  isMisspelled x w := !x.words.contains w
  suggest x _ := x.words
  checkAndSuggest x w s := if x.words.contains w then (true, s) else (false, x.words)
  storeReplacement x _ _ := (true, x)
  addToPersonal x w := (true, { x with words := w :: x.words })
  addToSession x w := (true, { x with words := w :: x.words })
  language x := x.tag

/-- A registry that knows English only and reports it as `en_US`. -/
def englishOnly (tag : String) : Option WordList :=
  if tag = "en" then some { tag := "en_US", words := ["hello"] } else none

/-- A registry with no dictionary at all. -/
def noDictionary (_ : String) : Option WordList := none

/-- Settings with the given modification flag and default language `en`. -/
def sampleSettings (modified : Bool) : Settings :=
  { modified := modified, defaultLanguage := "en", defaultClient := "",
    checkUppercase := true, skipRunTogether := true }

/-- Locale data for three languages. -/
def sampleLocale (code : String) : QLocale :=
  if code = "en" then { nativeLanguageName := "English", nativeCountryName := "United States" }
  else if code = "fr" then { nativeLanguageName := "français", nativeCountryName := "France" }
  else if code = "de" then { nativeLanguageName := "Deutsch", nativeCountryName := "Deutschland" }
  else { nativeLanguageName := code, nativeCountryName := "" }

/-- A loader whose flag is set and whose registry has no dictionary. -/
def staleLoader : Loader WordList :=
  { settings := sampleSettings true, resolve := noDictionary, requests := [] }

/-- A session for `en` still holding the handle of an earlier build. -/
def staleSession : Private WordList :=
  { dict := some { tag := "en_US", words := ["hello"] }, language := "en" }

/-- A loader with the flag clear and the English-only registry. -/
def cleanLoader : Loader WordList :=
  { settings := sampleSettings false, resolve := englishOnly, requests := [] }

/-- A loader with the flag set and the English-only registry. -/
def dirtyLoader : Loader WordList :=
  { settings := sampleSettings true, resolve := englishOnly, requests := [] }

/-- A session for `xx` without a dictionary. -/
def invalidSession : Private WordList :=
  { dict := none, language := "xx" }

/-- A session for `en` that has not obtained a dictionary yet. -/
def pendingSession : Private WordList :=
  { dict := none, language := "en" }

/-- The loader left by constructing a session for `xx` on `staleLoader`. -/
def createdLoader : Loader WordList := (Speller.create staleLoader "xx").1

/-- The session constructed for `xx` on `staleLoader`. -/
def createdSession : Private WordList := (Speller.create staleLoader "xx").2

/-- The session constructed with the empty tag on `staleLoader`; it takes the
default language. -/
def defaultSession : Private WordList := (Speller.create staleLoader "").2

/-! ## The validity gate -/

/-- With the flag set the gate rebuilds from the stored language, records the
request and clears the flag. -/
theorem Private.isValid_of_modified (l : Loader D) (d : Private D)
    (h : l.settings.modified = true) :
    Private.isValid l d =
      ((l.resolve d.language).isSome,
       { settings := l.settings.setModified false, resolve := l.resolve,
         requests := l.requests ++ [d.language] },
       { dict := l.resolve d.language, language := d.language }) := by
  simp [Private.isValid, h, Private.recreateDict, Loader.createSpeller, Loader.setModified]

/-- With the flag clear the gate changes nothing. -/
theorem Private.isValid_of_not_modified (l : Loader D) (d : Private D)
    (h : l.settings.modified = false) :
    Private.isValid l d = (d.dict.isSome, l, d) := by
  simp [Private.isValid, h]

/-- The gate returns whether the handle it leaves is present. -/
theorem Private.isValid_fst (l : Loader D) (d : Private D) :
    (Private.isValid l d).1 = (Private.isValid l d).2.2.dict.isSome := by
  cases h : l.settings.modified <;> simp [Private.isValid, h]

/-- The gate never changes the stored language. -/
theorem Private.isValid_language (l : Loader D) (d : Private D) :
    (Private.isValid l d).2.2.language = d.language := by
  cases h : l.settings.modified <;> simp [Private.isValid, h, Private.recreateDict]

/-- The gate never changes what the registry resolves. -/
theorem Private.isValid_resolve (l : Loader D) (d : Private D) :
    (Private.isValid l d).2.1.resolve = l.resolve := by
  cases h : l.settings.modified <;>
    simp [Private.isValid, h, Private.recreateDict, Loader.createSpeller, Loader.setModified]

/-- A session without a dictionary whose registry has none for its language
has no dictionary after the gate. -/
theorem Private.isValid_dict_none (l : Loader D) (d : Private D)
    (hd : d.dict = none) (hr : l.resolve d.language = none) :
    (Private.isValid l d).2.2.dict = none := by
  cases h : l.settings.modified <;>
    simp [Private.isValid, h, Private.recreateDict, Loader.createSpeller, hd, hr]

/-- A constructed session holds the registry's answer for its stored language. -/
theorem Speller.create_dict (l : Loader D) (lang : String) :
    (Speller.create l lang).2.dict = l.resolve (Speller.create l lang).2.language := by
  simp [Speller.create, Private.init, Loader.createSpeller]

/-- The states left by a gated operation: the loader is the one left by the
gate, the stored language is unchanged, and a handle is present exactly when
the gate left one. -/
theorem Speller.exec_gate (P : SpellerPlugin D) (l : Loader D) (d : Private D) (op : Op) :
    (Speller.exec P l d op).1 = (Private.isValid l d).2.1 ∧
    (Speller.exec P l d op).2.language = d.language ∧
    (Speller.exec P l d op).2.dict.isSome = (Private.isValid l d).2.2.dict.isSome := by
  have hl := Private.isValid_language l d
  cases op <;>
    simp only [Speller.exec, Speller.isCorrect, Speller.isMisspelled, Speller.suggest,
      Speller.checkAndSuggest, Speller.storeReplacement, Speller.addToPersonal,
      Speller.addToSession, Speller.language] <;>
    cases hx : (Private.isValid l d).2.2.dict <;> simp [hl, hx]

/-! ## Degraded mode -/

/-- C1 (fail-open). For a session that obtained no dictionary and whose
registry yields none for its stored language, whatever the modification flag
is, `isCorrect(w)` returns `true` and `isMisspelled(w)` returns `false`, and
the session is again without a dictionary afterwards. -/
theorem failOpen (P : SpellerPlugin D) (l : Loader D) (d : Private D) (w : String) (b : Bool)
    (hd : d.dict = none) (hr : l.resolve d.language = none) :
    (Speller.isCorrect P (l.setModified b) d w).1 = true ∧
    (Speller.isMisspelled P (l.setModified b) d w).1 = false ∧
    (Speller.isCorrect P (l.setModified b) d w).2.2.dict = none ∧
    (Speller.isMisspelled P (l.setModified b) d w).2.2.dict = none := by
  have hg := Private.isValid_dict_none (l.setModified b) d hd hr
  simp [Speller.isCorrect, Speller.isMisspelled, hg]

/-- C1 at the session constructed for `xx` on a loader with an empty registry,
with the flag set. -/
theorem failOpen_witness :
    createdSession.dict = none ∧ createdLoader.resolve createdSession.language = none ∧
    ((Speller.isCorrect wordListPlugin (createdLoader.setModified true) createdSession
        "helo").1 = true ∧
      (Speller.isMisspelled wordListPlugin (createdLoader.setModified true) createdSession
        "helo").1 = false ∧
      (Speller.isCorrect wordListPlugin (createdLoader.setModified true) createdSession
        "helo").2.2.dict = none ∧
      (Speller.isMisspelled wordListPlugin (createdLoader.setModified true) createdSession
        "helo").2.2.dict = none) :=
  ⟨rfl, rfl, failOpen wordListPlugin createdLoader createdSession "helo" true rfl rfl⟩

/-- C2 (fail-safe-empty). For a session that obtained no dictionary and whose
registry yields none for its stored language, whatever the modification flag
is, `suggest(w)` returns the empty list and `storeReplacement(bad, good)`,
`addToPersonal(w)` and `addToSession(w)` return `false`. -/
theorem failSafeEmpty (P : SpellerPlugin D) (l : Loader D) (d : Private D)
    (w bad good : String) (b : Bool)
    (hd : d.dict = none) (hr : l.resolve d.language = none) :
    (Speller.suggest P (l.setModified b) d w).1 = [] ∧
    (Speller.storeReplacement P (l.setModified b) d bad good).1 = false ∧
    (Speller.addToPersonal P (l.setModified b) d w).1 = false ∧
    (Speller.addToSession P (l.setModified b) d w).1 = false := by
  have hg := Private.isValid_dict_none (l.setModified b) d hd hr
  simp [Speller.suggest, Speller.storeReplacement, Speller.addToPersonal,
    Speller.addToSession, hg]

/-- C2 at the session constructed with the empty tag on a loader with an empty
registry, with the flag clear. -/
theorem failSafeEmpty_witness :
    defaultSession.dict = none ∧ staleLoader.resolve defaultSession.language = none ∧
    ((Speller.suggest wordListPlugin (staleLoader.setModified false) defaultSession "helo").1
        = [] ∧
      (Speller.storeReplacement wordListPlugin (staleLoader.setModified false) defaultSession
        "teh" "the").1 = false ∧
      (Speller.addToPersonal wordListPlugin (staleLoader.setModified false) defaultSession
        "helo").1 = false ∧
      (Speller.addToSession wordListPlugin (staleLoader.setModified false) defaultSession
        "helo").1 = false) :=
  ⟨rfl, rfl,
    failSafeEmpty wordListPlugin staleLoader defaultSession "helo" "teh" "the" false rfl rfl⟩

/-! ## The public `isValid` -/

/-- C3, refuted as stated. With the flag set, an empty registry and a session
still holding an old handle, the public `isValid()` answers `true`, although
the registry yields no dictionary for the stored language and the gate answers
`false`; the flag is still set and no request was made. -/
theorem isValid_skips_gate :
    staleLoader.settings.modified = true ∧
    (Speller.isValid staleLoader staleSession).1 = true ∧
    (staleLoader.resolve staleSession.language).isSome = false ∧
    (Private.isValid staleLoader staleSession).1 = false ∧
    (Speller.isValid staleLoader staleSession).2.1.settings.modified = true ∧
    (Speller.isValid staleLoader staleSession).2.1.requests = [] := by
  decide

/-- C3 as amended. The public `isValid()` returns whether the handle the
session holds is present and performs no staleness check: it makes no registry
request and leaves the flag and the session as they are. When the flag is
clear this is the same as running the gate. -/
theorem isValid_reads_handle (l : Loader D) (d : Private D) :
    (Speller.isValid l d).1 = d.dict.isSome ∧
    (Speller.isValid l d).2.1.requests = l.requests ∧
    (Speller.isValid l d).2.1.settings.modified = l.settings.modified ∧
    (Speller.isValid l d).2.2 = d ∧
    (l.settings.modified = false → Speller.isValid l d = Private.isValid l d) := by
  refine ⟨rfl, rfl, rfl, rfl, fun h => ?_⟩
  rw [Private.isValid_of_not_modified l d h]
  rfl

/-- C3 as amended, at a loader with the flag clear. -/
theorem isValid_reads_handle_witness :
    cleanLoader.settings.modified = false ∧
    Speller.isValid cleanLoader staleSession = Private.isValid cleanLoader staleSession :=
  ⟨rfl, (isValid_reads_handle cleanLoader staleSession).2.2.2.2 rfl⟩

/-! ## `checkAndSuggest` without a dictionary -/

/-- C6, refuted as stated. On a session without a dictionary,
`checkAndSuggest` called with a list that already holds an entry returns
`true` and leaves that entry in the list. -/
theorem checkAndSuggest_keeps_list :
    (Private.isValid staleLoader invalidSession).1 = false ∧
    (Speller.checkAndSuggest wordListPlugin staleLoader invalidSession "helo" ["old"]).1
      = (true, ["old"]) ∧
    (Speller.checkAndSuggest wordListPlugin staleLoader invalidSession "helo" ["old"]).1.2
      ≠ [] := by
  decide

/-- C6 as amended. When the gate reports no dictionary, `checkAndSuggest`
returns `true` and the caller's suggestion list is exactly what it was before
the call. -/
theorem checkAndSuggest_invalid (P : SpellerPlugin D) (l : Loader D) (d : Private D)
    (word : String) (suggestions : List String)
    (h : (Private.isValid l d).1 = false) :
    (Speller.checkAndSuggest P l d word suggestions).1 = (true, suggestions) := by
  rw [Private.isValid_fst] at h
  have hg : (Private.isValid l d).2.2.dict = none := by
    cases hx : (Private.isValid l d).2.2.dict with
    | none => rfl
    | some x => simp [hx] at h
  simp [Speller.checkAndSuggest, hg]

/-- C6 as amended, at a session for `xx` with an empty registry and an empty
list. -/
theorem checkAndSuggest_invalid_witness :
    (Private.isValid staleLoader invalidSession).1 = false ∧
    (Speller.checkAndSuggest wordListPlugin staleLoader invalidSession "helo" []).1
      = (true, []) :=
  ⟨by decide, checkAndSuggest_invalid wordListPlugin staleLoader invalidSession "helo" []
    (by decide)⟩

/-! ## Rebuilds -/

/-- C8 (staleness convergence). If the flag is set when a gated operation
starts, the operation makes exactly one registry request, for the stored
language of the session, and the flag is clear when it returns. -/
theorem staleness_convergence (P : SpellerPlugin D) (l : Loader D) (d : Private D) (op : Op)
    (h : l.settings.modified = true) :
    (Speller.exec P l d op).1.requests = l.requests ++ [d.language] ∧
    (Speller.exec P l d op).1.settings.modified = false := by
  rw [(Speller.exec_gate P l d op).1, Private.isValid_of_modified l d h]
  exact ⟨rfl, rfl⟩

/-- C8 for `addToSession` on a session for `en` with the flag set. -/
theorem staleness_convergence_witness :
    dirtyLoader.settings.modified = true ∧
    (Speller.exec wordListPlugin dirtyLoader pendingSession (.addToSession "helo")).1.requests
      = dirtyLoader.requests ++ [pendingSession.language] ∧
    (Speller.exec wordListPlugin dirtyLoader pendingSession
      (.addToSession "helo")).1.settings.modified = false :=
  ⟨rfl, staleness_convergence wordListPlugin dirtyLoader pendingSession (.addToSession "helo")
    rfl⟩

/-- C9 (setLanguage forces rebuild). Whatever the flag is, `setLanguage(t)`
stores `t`, makes exactly one registry request, for `t`, and replaces the
handle by the registry's answer; the flag is left as it was. -/
theorem setLanguage_rebuilds (l : Loader D) (d : Private D) (t : String) (b : Bool) :
    (Speller.setLanguage (l.setModified b) d t).2.language = t ∧
    (Speller.setLanguage (l.setModified b) d t).1.requests = l.requests ++ [t] ∧
    (Speller.setLanguage (l.setModified b) d t).2.dict = l.resolve t ∧
    (Speller.setLanguage (l.setModified b) d t).1.settings.modified = b := by
  simp [Speller.setLanguage, Private.recreateDict, Loader.createSpeller, Loader.setModified,
    Settings.setModified]

/-! ## Two sessions sharing the settings -/

/-- C7, refuted as stated. Two sessions for `en` share a loader whose flag is
set and whose registry has an English dictionary; the second session holds no
dictionary yet. After `isCorrect` on the first and then on the second, the
second operation has made no registry request and the second session still
has no dictionary. -/
theorem second_session_not_rebuilt :
    dirtyLoader.settings.modified = true ∧
    (dirtyLoader.resolve pendingSession.language).isSome = true ∧
    (Speller.exec wordListPlugin
        (Speller.exec wordListPlugin dirtyLoader staleSession (.isCorrect "hello")).1
        pendingSession (.isCorrect "helo")).1.requests
      = (Speller.exec wordListPlugin dirtyLoader staleSession (.isCorrect "hello")).1.requests ∧
    (Speller.exec wordListPlugin
        (Speller.exec wordListPlugin dirtyLoader staleSession (.isCorrect "hello")).1
        pendingSession (.isCorrect "helo")).2.dict.isSome = false := by
  decide

/-- C7 as amended. If the flag is set and a gated operation runs on session
`a` and then one on session `b`, with no configuration change in between, the
operation on `a` makes one registry request for the language of `a`, leaves in
`a` a handle that is present exactly when the registry yields one, and clears
the flag; the operation on `b` leaves the loader as it found it (no registry
request) and `b` has a dictionary afterwards exactly when it had one before. -/
theorem only_first_gate_rebuilds (P : SpellerPlugin D) (l : Loader D) (a b : Private D)
    (opA opB : Op) (h : l.settings.modified = true) :
    (Speller.exec P l a opA).1.requests = l.requests ++ [a.language] ∧
    (Speller.exec P l a opA).2.dict.isSome = (l.resolve a.language).isSome ∧
    (Speller.exec P l a opA).1.settings.modified = false ∧
    (Speller.exec P (Speller.exec P l a opA).1 b opB).1 = (Speller.exec P l a opA).1 ∧
    (Speller.exec P (Speller.exec P l a opA).1 b opB).2.dict.isSome = b.dict.isSome := by
  have hA := Speller.exec_gate P l a opA
  have hm : (Speller.exec P l a opA).1.settings.modified = false := by
    rw [hA.1, Private.isValid_of_modified l a h]; rfl
  have hB := Speller.exec_gate P (Speller.exec P l a opA).1 b opB
  rw [Private.isValid_of_not_modified _ b hm] at hB
  refine ⟨?_, ?_, hm, hB.1, hB.2.2⟩
  · rw [hA.1, Private.isValid_of_modified l a h]
  · rw [hA.2.2, Private.isValid_of_modified l a h]

/-- C7 as amended, for `suggest` on one session and `language` on another. -/
theorem only_first_gate_rebuilds_witness :
    dirtyLoader.settings.modified = true ∧
    ((Speller.exec wordListPlugin dirtyLoader invalidSession (.suggest "helo")).1.requests
        = dirtyLoader.requests ++ [invalidSession.language] ∧
      (Speller.exec wordListPlugin dirtyLoader invalidSession (.suggest "helo")).2.dict.isSome
        = (dirtyLoader.resolve invalidSession.language).isSome ∧
      (Speller.exec wordListPlugin dirtyLoader invalidSession
        (.suggest "helo")).1.settings.modified = false ∧
      (Speller.exec wordListPlugin
          (Speller.exec wordListPlugin dirtyLoader invalidSession (.suggest "helo")).1
          pendingSession .language).1
        = (Speller.exec wordListPlugin dirtyLoader invalidSession (.suggest "helo")).1 ∧
      (Speller.exec wordListPlugin
          (Speller.exec wordListPlugin dirtyLoader invalidSession (.suggest "helo")).1
          pendingSession .language).2.dict.isSome
        = pendingSession.dict.isSome) :=
  ⟨rfl, only_first_gate_rebuilds wordListPlugin dirtyLoader invalidSession pendingSession
    (.suggest "helo") .language rfl⟩

/-! ## Copy and assignment -/

/-- C5, refuted as stated. The source session stores the tag `en` and holds a
dictionary that reports `en_US`. After `copy` and after `assign` the target
stores `en_US`, not `en`, and the registry was asked for `en_US`. -/
theorem copy_takes_reported_language :
    staleSession.language = "en" ∧
    (Speller.copy wordListPlugin cleanLoader staleSession).2.2.language = "en_US" ∧
    (Speller.copy wordListPlugin cleanLoader staleSession).2.2.language
      ≠ staleSession.language ∧
    (Speller.copy wordListPlugin cleanLoader staleSession).1.requests = ["en_US"] ∧
    (Speller.assign wordListPlugin cleanLoader invalidSession staleSession).2.2.language
      = "en_US" ∧
    (Speller.assign wordListPlugin cleanLoader invalidSession staleSession).2.2.language
      ≠ staleSession.language ∧
    (Speller.assign wordListPlugin cleanLoader invalidSession staleSession).1.requests
      = ["en_US"] := by
  decide

/-- C5 as amended. After `copy(other)` or `assign(other)` the stored language
of the target is the value returned by `other.language()`: the tag reported by
the dictionary of `other` after the gate, or the empty tag when `other` has no
dictionary, which `copy` replaces by the configured default language. The
dictionary of the target is requested from the registry once, for exactly the
stored language of the target, and is the registry's answer. -/
theorem copy_assign_language (P : SpellerPlugin D) (l : Loader D) (d other : Private D) :
    (Speller.language P l other).1
      = (match (Private.isValid l other).2.2.dict with
        | none => ""
        | some x => P.language x) ∧
    (Speller.copy P l other).2.2.language
      = (if QString.isEmpty (Speller.language P l other).1
          then l.settings.defaultLanguage else (Speller.language P l other).1) ∧
    (Speller.copy P l other).1.requests
      = (Speller.language P l other).2.1.requests ++ [(Speller.copy P l other).2.2.language] ∧
    (Speller.copy P l other).2.2.dict = l.resolve (Speller.copy P l other).2.2.language ∧
    (Speller.assign P l d other).2.2.language = (Speller.language P l other).1 ∧
    (Speller.assign P l d other).1.requests
      = (Speller.language P l other).2.1.requests ++ [(Speller.language P l other).1] ∧
    (Speller.assign P l d other).2.2.dict = l.resolve (Speller.language P l other).1 := by
  have hl : (Speller.language P l other).2.1 = (Private.isValid l other).2.1 := by
    simp only [Speller.language]
    cases hx : (Private.isValid l other).2.2.dict <;> simp [hx]
  have hr : (Speller.language P l other).2.1.resolve = l.resolve := by
    rw [hl, Private.isValid_resolve]
  have hd : (Speller.language P l other).2.1.settings.defaultLanguage
      = l.settings.defaultLanguage := by
    rw [hl]
    cases h : l.settings.modified <;>
      simp [Private.isValid, h, Private.recreateDict, Loader.createSpeller,
        Loader.setModified, Settings.setModified]
  refine ⟨?_, ?_, ?_, ?_, ?_, ?_, ?_⟩
  · simp only [Speller.language]
    cases hx : (Private.isValid l other).2.2.dict <;> simp [hx]
  · simp [Speller.copy, Private.init, hd]
  · simp [Speller.copy, Private.init, Loader.createSpeller]
  · simp [Speller.copy, Private.init, Loader.createSpeller, hr]
  · simp [Speller.assign, Private.recreateDict]
  · simp [Speller.assign, Private.recreateDict, Loader.createSpeller]
  · simp [Speller.assign, Private.recreateDict, Loader.createSpeller, hr]

/-! ## The key order and the map -/

/-- Characters with the same code are equal. -/
theorem QString.char_eq_of_toNat_eq {a b : Char} (h : a.toNat = b.toNat) : a = b := by
  apply Char.ext
  apply UInt32.ext
  exact h

/-- No sequence is below itself. -/
theorem QString.ltChars_irrefl (a : List Char) : QString.ltChars a a = false := by
  induction a with
  | nil => rfl
  | cons x xs ih => simp [QString.ltChars, ih]

/-- The comparison is transitive. -/
theorem QString.ltChars_trans {a b c : List Char}
    (h1 : QString.ltChars a b = true) (h2 : QString.ltChars b c = true) :
    QString.ltChars a c = true := by
  induction a generalizing b c with
  | nil =>
    cases b with
    | nil => simp [QString.ltChars] at h1
    | cons y ys =>
      cases c with
      | nil => simp [QString.ltChars] at h2
      | cons z zs => simp [QString.ltChars]
  | cons x xs ih =>
    cases b with
    | nil => simp [QString.ltChars] at h1
    | cons y ys =>
      cases c with
      | nil => simp [QString.ltChars] at h2
      | cons z zs =>
        simp only [QString.ltChars] at h1 h2 ⊢
        split at h1
        · split at h2
          · have : x.toNat < z.toNat := by omega
            simp [this]
          · split at h2
            · have : x.toNat < z.toNat := by omega
              simp [this]
            · simp at h2
        · split at h1
          · split at h2
            · have : x.toNat < z.toNat := by omega
              simp [this]
            · split at h2
              · have h3 : ¬ x.toNat < z.toNat := by omega
                have h4 : x.toNat = z.toNat := by omega
                simp [h3, h4, ih h1 h2]
              · simp at h2
          · simp at h1

/-- Two different sequences are comparable. -/
theorem QString.ltChars_total {a b : List Char}
    (h1 : QString.ltChars a b = false) (h2 : a ≠ b) : QString.ltChars b a = true := by
  induction a generalizing b with
  | nil =>
    cases b with
    | nil => exact absurd rfl h2
    | cons y ys => simp [QString.ltChars] at h1
  | cons x xs ih =>
    cases b with
    | nil => simp [QString.ltChars]
    | cons y ys =>
      simp only [QString.ltChars] at h1 ⊢
      split at h1
      · simp at h1
      · split at h1
        · rename_i h3 h4
          have hxy : x = y := QString.char_eq_of_toNat_eq h4
          subst hxy
          have : xs ≠ ys := fun h => h2 (by rw [h])
          simp [ih h1 this]
        · rename_i h3 h4
          have : y.toNat < x.toNat := by omega
          simp [this]

/-- The keys after an insertion are the inserted key and the old keys. -/
theorem QMap.mem_keys_insert (key value : String) (m : QMap) (k : String) :
    k ∈ QMap.keys (QMap.insert key value m) ↔ k = key ∨ k ∈ QMap.keys m := by
  induction m with
  | nil => simp [QMap.insert, QMap.keys]
  | cons e m ih =>
    obtain ⟨k0, v0⟩ := e
    simp only [QMap.insert]
    split
    · simp [QMap.keys]
    · split
      · rename_i h1 h2
        subst h2
        simp [QMap.keys]
      · simp only [QMap.keys, List.map_cons, List.mem_cons] at ih ⊢
        rw [ih]
        tauto

/-- An entry of the map after an insertion is the inserted one or an old one. -/
theorem QMap.mem_insert (key value : String) (m : QMap) (e : String × String)
    (h : e ∈ QMap.insert key value m) : e = (key, value) ∨ e ∈ m := by
  induction m with
  | nil => simpa [QMap.insert] using h
  | cons e0 m ih =>
    obtain ⟨k0, v0⟩ := e0
    simp only [QMap.insert] at h
    split at h
    · simpa using h
    · split at h
      · rcases List.mem_cons.1 h with h | h
        · exact Or.inl h
        · exact Or.inr (List.mem_cons_of_mem _ h)
      · rcases List.mem_cons.1 h with h | h
        · exact Or.inr (by rw [h]; exact List.mem_cons_self _ _)
        · rcases ih h with h | h
          · exact Or.inl h
          · exact Or.inr (List.mem_cons_of_mem _ h)

/-- Insertion keeps the keys in strictly ascending order. -/
theorem QMap.ordered_insert (key value : String) (m : QMap) (h : QMap.Ordered m) :
    QMap.Ordered (QMap.insert key value m) := by
  induction m with
  | nil => simp [QMap.insert, QMap.Ordered, QMap.keys]
  | cons e m ih =>
    obtain ⟨k0, v0⟩ := e
    simp only [QMap.Ordered, QMap.keys, List.map_cons, List.pairwise_cons] at h
    simp only [QMap.insert]
    split
    · rename_i hlt
      simp only [QMap.Ordered, QMap.keys, List.map_cons, List.pairwise_cons, List.mem_cons]
      refine ⟨?_, h.1, h.2⟩
      intro k hk
      rcases hk with hk | hk
      · rw [hk]; exact hlt
      · exact QString.ltChars_trans hlt (h.1 k hk)
    · split
      · rename_i h1 h2
        subst h2
        simp only [QMap.Ordered, QMap.keys, List.map_cons, List.pairwise_cons]
        exact h
      · rename_i h1 h2
        have hgt : QString.lt k0 key = true := by
          apply QString.ltChars_total
          · simpa [QString.lt] using h1
          · intro hd
            apply h2
            exact String.ext hd
        have hi := ih h.2
        simp only [QMap.Ordered, QMap.keys, List.map_cons, List.pairwise_cons]
        refine ⟨?_, hi⟩
        intro k hk
        rcases (QMap.mem_keys_insert key value m k).1 hk with hk | hk
        · rw [hk]; exact hgt
        · exact h.1 k hk

/-- A map with ascending keys has no key twice. -/
theorem QMap.Ordered.nodup {m : QMap} (h : QMap.Ordered m) : (QMap.keys m).Nodup := by
  refine List.Pairwise.imp ?_ h
  intro a b hab heq
  subst heq
  simp [QString.lt, QString.ltChars_irrefl] at hab

/-- The value stored under a key just inserted is the inserted value. -/
theorem QMap.value_insert_self (key value : String) (m : QMap) :
    QMap.value (QMap.insert key value m) key = some value := by
  induction m with
  | nil => simp [QMap.insert, QMap.value]
  | cons e m ih =>
    obtain ⟨k0, v0⟩ := e
    simp only [QMap.insert]
    split
    · simp [QMap.value]
    · split
      · simp [QMap.value]
      · rename_i h1 h2
        have h3 : ¬ k0 = key := fun h => h2 h.symm
        simp only [QMap.value] at ih
        simp [QMap.value, List.find?_cons, h3, ih]

/-- An insertion leaves the values under the other keys as they were. -/
theorem QMap.value_insert_of_ne (key value : String) (m : QMap) (k : String) (hk : k ≠ key) :
    QMap.value (QMap.insert key value m) k = QMap.value m k := by
  have hk2 : ¬ key = k := fun h => hk h.symm
  induction m with
  | nil => simp [QMap.insert, QMap.value, List.find?_cons, hk2]
  | cons e m ih =>
    obtain ⟨k0, v0⟩ := e
    simp only [QMap.insert]
    split
    · simp [QMap.value, List.find?_cons, hk2]
    · split
      · rename_i h1 h2
        subst h2
        simp [QMap.value, List.find?_cons, hk2]
      · simp only [QMap.value] at ih
        by_cases h3 : k0 = k
        · simp [QMap.value, List.find?_cons, h3]
        · simp [QMap.value, List.find?_cons, h3, ih]

/-- The position reported for the first `c`, in terms of the characters that
precede it. -/
theorem QString.indexOfFrom_eq (c : Char) (cs : List Char) (i : Nat) :
    QString.indexOfFrom c cs i =
      if c ∈ cs then ((i + (cs.takeWhile (fun x => x ≠ c)).length : Nat) : Int) else -1 := by
  induction cs generalizing i with
  | nil => simp [QString.indexOfFrom]
  | cons x xs ih =>
    simp only [QString.indexOfFrom]
    by_cases h : x = c
    · subst h
      simp
    · have h2 : ¬ c = x := fun e => h e.symm
      simp only [h, if_false, ih, List.mem_cons, h2, false_or]
      split
      · simp [List.takeWhile_cons, h]
        omega
      · rfl

/-- Taking as many elements as a `takeWhile` has gives that `takeWhile`. -/
theorem QString.take_length_takeWhile (p : Char → Bool) (cs : List Char) :
    cs.take (cs.takeWhile p).length = cs.takeWhile p := by
  induction cs with
  | nil => rfl
  | cons x xs ih =>
    by_cases h : p x
    · simp [List.takeWhile_cons, h, ih]
    · simp [List.takeWhile_cons, h]

/-- A `takeWhile` that rejects nothing in the list returns the list. -/
theorem QString.takeWhile_of_not_mem (c : Char) (cs : List Char) (h : c ∉ cs) :
    cs.takeWhile (fun x => x ≠ c) = cs := by
  induction cs with
  | nil => rfl
  | cons x xs ih =>
    simp only [List.mem_cons, not_or] at h
    have hp : decide (x ≠ c) = true := by
      simpa using fun e => h.1 e.symm
    rw [List.takeWhile_cons, if_pos hp, ih h.2]

/-- The locale code of a tag is the tag up to its first `-`, the whole tag
when it holds none. -/
theorem localeCode_data (tag : String) :
    (localeCode tag).data = tag.data.takeWhile (fun c => c ≠ '-') := by
  simp only [localeCode, QString.mid, QString.indexOf, QString.indexOfFrom_eq]
  by_cases h : '-' ∈ tag.data
  · have hlen : (tag.data.takeWhile (fun c => c ≠ '-')).length ≤ tag.data.length :=
      (List.takeWhile_sublist _).length_le
    have h1 : ¬ ((((0 + (tag.data.takeWhile (fun c => c ≠ '-')).length : Nat) : Int) < 0) ∨
        (((tag.data.length - 0 : Nat) : Int)
          < ((0 + (tag.data.takeWhile (fun c => c ≠ '-')).length : Nat) : Int))) := by
      omega
    simp only [h, if_true, Nat.not_lt_zero, if_false, h1, List.drop_zero]
    simp [QString.take_length_takeWhile]
  · rw [QString.takeWhile_of_not_mem _ _ h]
    simp [h]

/-! ## The loop of `availableDictionaries` -/

/-- Every entry after the loop was there before or was entered for a tag of
the list. -/
theorem availableDictionaries_fold_mem (locale : String → QLocale) (lst : List String)
    (m0 : QMap) (e : String × String)
    (h : e ∈ lst.foldl (availableDictionariesStep locale) m0) :
    e ∈ m0 ∨ ∃ tag ∈ lst, e = (descriptionOf locale tag, localeCode tag) := by
  induction lst generalizing m0 with
  | nil => exact Or.inl h
  | cons t ts ih =>
    rcases ih _ h with h1 | ⟨tag, htag, he⟩
    · rcases QMap.mem_insert _ _ _ _ h1 with h2 | h2
      · exact Or.inr ⟨t, List.mem_cons_self _ _, h2⟩
      · exact Or.inl h2
    · exact Or.inr ⟨tag, List.mem_cons_of_mem _ htag, he⟩

/-- The keys after the loop are the keys before and the descriptions of the
tags. -/
theorem availableDictionaries_fold_keys (locale : String → QLocale) (lst : List String)
    (m0 : QMap) (k : String) :
    k ∈ QMap.keys (lst.foldl (availableDictionariesStep locale) m0) ↔
      k ∈ QMap.keys m0 ∨ k ∈ lst.map (descriptionOf locale) := by
  induction lst generalizing m0 with
  | nil => simp
  | cons t ts ih =>
    rw [List.foldl_cons, ih]
    simp only [availableDictionariesStep, QMap.mem_keys_insert, List.map_cons, List.mem_cons,
      descriptionOf]
    tauto

/-- The loop keeps the keys in ascending order. -/
theorem availableDictionaries_fold_ordered (locale : String → QLocale) (lst : List String)
    (m0 : QMap) (h : QMap.Ordered m0) :
    QMap.Ordered (lst.foldl (availableDictionariesStep locale) m0) := by
  induction lst generalizing m0 with
  | nil => exact h
  | cons t ts ih => exact ih _ (QMap.ordered_insert _ _ _ h)

/-- Tags with another description leave the value under `k` as it was. -/
theorem availableDictionaries_fold_value (locale : String → QLocale) (lst : List String)
    (m0 : QMap) (k : String) (h : ∀ t ∈ lst, descriptionOf locale t ≠ k) :
    QMap.value (lst.foldl (availableDictionariesStep locale) m0) k = QMap.value m0 k := by
  induction lst generalizing m0 with
  | nil => rfl
  | cons t ts ih =>
    rw [List.foldl_cons, ih _ (fun x hx => h x (List.mem_cons_of_mem _ hx))]
    exact QMap.value_insert_of_ne _ _ _ _ (fun e => h t (List.mem_cons_self _ _) e.symm)

/-- The value under the description of a tag that no later tag shares. -/
theorem availableDictionaries_value_last (locale : String → QLocale) (pre post : List String)
    (tag : String) (h : ∀ t ∈ post, descriptionOf locale t ≠ descriptionOf locale tag) :
    QMap.value (Speller.availableDictionaries locale (pre ++ tag :: post))
      (descriptionOf locale tag) = some (localeCode tag) := by
  rw [Speller.availableDictionaries, List.foldl_append, List.foldl_cons,
    availableDictionaries_fold_value locale post _ _ h]
  exact QMap.value_insert_self _ _ _

/-- The keys of the returned map are in ascending order. -/
theorem availableDictionaries_ordered (locale : String → QLocale) (lst : List String) :
    QMap.Ordered (Speller.availableDictionaries locale lst) :=
  availableDictionaries_fold_ordered locale lst [] List.Pairwise.nil

/-- The keys of the returned map are the descriptions of the tags. -/
theorem availableDictionaries_keys (locale : String → QLocale) (lst : List String)
    (k : String) :
    k ∈ QMap.keys (Speller.availableDictionaries locale lst) ↔
      k ∈ lst.map (descriptionOf locale) := by
  rw [Speller.availableDictionaries, availableDictionaries_fold_keys]
  simp [QMap.keys]

/-- In a map without a repeated key, an entry is the value stored under its
key. -/
theorem QMap.value_of_mem (m : QMap) (h : (QMap.keys m).Nodup) (k v : String)
    (hm : (k, v) ∈ m) : QMap.value m k = some v := by
  induction m with
  | nil => simp at hm
  | cons e m ih =>
    obtain ⟨k0, v0⟩ := e
    simp only [QMap.keys, List.map_cons, List.nodup_cons] at h
    rcases List.mem_cons.1 hm with h1 | h1
    · simp only [Prod.mk.injEq] at h1
      simp [QMap.value, List.find?_cons, h1.1, h1.2]
    · have hne : ¬ k0 = k := by
        intro e
        apply h.1
        rw [e]
        exact List.mem_map_of_mem Prod.fst h1
      have hi := ih h.2 h1
      simp only [QMap.value] at hi
      simp [QMap.value, List.find?_cons, hne, hi]

/-- The number of entries is the number of distinct descriptions. -/
theorem availableDictionaries_length (locale : String → QLocale) (lst : List String) :
    (Speller.availableDictionaries locale lst).length
      = ((lst.map (descriptionOf locale)).dedup).length := by
  have hn := (availableDictionaries_ordered locale lst).nodup
  have hp : (QMap.keys (Speller.availableDictionaries locale lst)).Perm
      ((lst.map (descriptionOf locale)).dedup) := by
    rw [List.perm_ext_iff_of_nodup hn (List.nodup_dedup _)]
    intro k
    rw [availableDictionaries_keys, List.mem_dedup]
  have := hp.length_eq
  simpa [QMap.keys] using this

/-! ## The display map -/

/-- C4, refuted as stated. For the tags `en-US`, `fr-FR`, `de-DE`, whose
descriptions differ, the map has three entries and its values are `de`, `en`
and `fr` (in key order): none of them is one of the available tags. -/
theorem values_are_not_full_tags :
    QMap.values (Speller.availableDictionaries sampleLocale ["en-US", "fr-FR", "de-DE"])
      = ["de", "en", "fr"] ∧
    ¬ (∀ v ∈ QMap.values
          (Speller.availableDictionaries sampleLocale ["en-US", "fr-FR", "de-DE"]),
        v ∈ ["en-US", "fr-FR", "de-DE"]) := by
  decide

/-- C4 as amended. Every value of the map returned by
`availableDictionaries()` is the locale code of one of the available tags,
that is the tag up to its first `-` (the whole tag when it has none), stored
under the description of that code. When the descriptions of the tags are
pairwise distinct the map has one entry per tag, and the value stored under
the description of a tag is the locale code of that tag. -/
theorem values_are_locale_codes (locale : String → QLocale) (lst : List String) :
    (∀ e ∈ Speller.availableDictionaries locale lst,
      ∃ tag ∈ lst, e.2 = localeCode tag ∧ e.1 = describe (locale (localeCode tag)) ∧
        e.2.data = tag.data.takeWhile (fun c => c ≠ '-')) ∧
    ((lst.map (descriptionOf locale)).Nodup →
      (Speller.availableDictionaries locale lst).length = lst.length ∧
      ∀ tag ∈ lst,
        QMap.value (Speller.availableDictionaries locale lst) (descriptionOf locale tag)
          = some (localeCode tag)) := by
  constructor
  · intro e he
    rcases availableDictionaries_fold_mem locale lst [] e he with h | ⟨tag, htag, h⟩
    · simp at h
    · refine ⟨tag, htag, ?_, ?_, ?_⟩
      · rw [h]
      · rw [h]; rfl
      · rw [h]; exact localeCode_data tag
  · intro hn
    constructor
    · rw [availableDictionaries_length, List.Nodup.dedup hn, List.length_map]
    · intro tag htag
      obtain ⟨pre, post, rfl⟩ := List.append_of_mem htag
      apply availableDictionaries_value_last
      intro t ht heq
      rw [List.map_append, List.map_cons, List.nodup_append] at hn
      have h2 := (List.nodup_cons.1 hn.2.1).1
      exact h2 (heq ▸ List.mem_map_of_mem _ ht)

/-- C4 as amended, for the tags `en-US`, `fr-FR`, `de-DE`. -/
theorem values_are_locale_codes_witness :
    ((describe (sampleLocale "en"), "en")
        ∈ Speller.availableDictionaries sampleLocale ["en-US", "fr-FR", "de-DE"]) ∧
    (["en-US", "fr-FR", "de-DE"].map (descriptionOf sampleLocale)).Nodup ∧
    (∃ tag ∈ ["en-US", "fr-FR", "de-DE"], "en" = localeCode tag ∧
      describe (sampleLocale "en") = describe (sampleLocale (localeCode tag)) ∧
      "en".data = tag.data.takeWhile (fun c => c ≠ '-')) ∧
    (Speller.availableDictionaries sampleLocale ["en-US", "fr-FR", "de-DE"]).length = 3 ∧
    QMap.value (Speller.availableDictionaries sampleLocale ["en-US", "fr-FR", "de-DE"])
      (descriptionOf sampleLocale "fr-FR") = some (localeCode "fr-FR") :=
  ⟨by decide, by decide,
    (values_are_locale_codes sampleLocale ["en-US", "fr-FR", "de-DE"]).1
      (describe (sampleLocale "en"), "en") (by decide),
    ((values_are_locale_codes sampleLocale ["en-US", "fr-FR", "de-DE"]).2 (by decide)).1,
    ((values_are_locale_codes sampleLocale ["en-US", "fr-FR", "de-DE"]).2 (by decide)).2
      "fr-FR" (by decide)⟩

/-- C10 (last write wins). For a description produced by the tag `tag` and by
no later tag of the list, the value stored under it in the map returned by
`availableDictionaries()` is the one inserted for `tag`, and no other value is
stored under it; the map has no key twice, its keys are exactly the
descriptions produced by the tags, and it has as many entries as there are
distinct descriptions. -/
theorem description_collision_last_wins (locale : String → QLocale) (pre post : List String)
    (tag : String) (h : ∀ t ∈ post, descriptionOf locale t ≠ descriptionOf locale tag) :
    QMap.value (Speller.availableDictionaries locale (pre ++ tag :: post))
      (descriptionOf locale tag) = some (localeCode tag) ∧
    (∀ v, (descriptionOf locale tag, v)
        ∈ Speller.availableDictionaries locale (pre ++ tag :: post) → v = localeCode tag) ∧
    (QMap.keys (Speller.availableDictionaries locale (pre ++ tag :: post))).Nodup ∧
    (∀ k, k ∈ QMap.keys (Speller.availableDictionaries locale (pre ++ tag :: post)) ↔
      k ∈ (pre ++ tag :: post).map (descriptionOf locale)) ∧
    (Speller.availableDictionaries locale (pre ++ tag :: post)).length
      = (((pre ++ tag :: post).map (descriptionOf locale)).dedup).length := by
  have hn := (availableDictionaries_ordered locale (pre ++ tag :: post)).nodup
  have hv := availableDictionaries_value_last locale pre post tag h
  refine ⟨hv, ?_, hn, availableDictionaries_keys locale _, availableDictionaries_length locale _⟩
  intro v hmem
  have := QMap.value_of_mem _ hn _ _ hmem
  rw [hv] at this
  exact (Option.some.inj this).symm

/-- C10 for `en-US`, `en-GB`, `fr-FR`: both English tags produce the same
description, and the value stored under it is the one inserted for `en-GB`. -/
theorem description_collision_last_wins_witness :
    (∀ t ∈ ["fr-FR"], descriptionOf sampleLocale t ≠ descriptionOf sampleLocale "en-GB") ∧
    (QMap.value (Speller.availableDictionaries sampleLocale (["en-US"] ++ "en-GB" :: ["fr-FR"]))
        (descriptionOf sampleLocale "en-GB") = some (localeCode "en-GB") ∧
      (∀ v, (descriptionOf sampleLocale "en-GB", v)
          ∈ Speller.availableDictionaries sampleLocale (["en-US"] ++ "en-GB" :: ["fr-FR"]) →
        v = localeCode "en-GB") ∧
      (QMap.keys
        (Speller.availableDictionaries sampleLocale (["en-US"] ++ "en-GB" :: ["fr-FR"]))).Nodup ∧
      (∀ k, k ∈ QMap.keys
            (Speller.availableDictionaries sampleLocale (["en-US"] ++ "en-GB" :: ["fr-FR"])) ↔
          k ∈ (["en-US"] ++ "en-GB" :: ["fr-FR"]).map (descriptionOf sampleLocale)) ∧
      (Speller.availableDictionaries sampleLocale (["en-US"] ++ "en-GB" :: ["fr-FR"])).length
        = (((["en-US"] ++ "en-GB" :: ["fr-FR"]).map (descriptionOf sampleLocale)).dedup).length) :=
  ⟨by decide,
    description_collision_last_wins sampleLocale ["en-US"] ["fr-FR"] "en-GB" (by decide)⟩

end Sonnet
